import Mathlib

/- Verification development for the cert-manager-webhook-ovh DNS-01 solver.

The Go source (`main.go`) is shallowly embedded here:
* pure string logic (`getSubDomain`, `util.UnFqdn`) becomes pure functions
  on `String` (character-level, adequate for ASCII DNS names);
* the OVH zone API becomes an explicit state (`ZoneState`) plus a trace of
  API calls (`ApiCall`); transport failures are injected by an oracle
  `fail : ApiCall → Option String` giving the underlying error message;
* Kubernetes secret lookup and JSON unmarshalling are external dependencies
  and are passed in as oracle functions.
-/

namespace OvhWebhook

/-- Embeds `strings.Index(s, pat)` from the Go standard library: the index of
the first occurrence of `pat` in `s`, or `none` when `pat` does not occur.
(Go returns `-1` for no occurrence; we use `Option`.) -/
def strIndex (s pat : List Char) : Option Nat :=
  match s with
  | [] => if List.isPrefixOf pat [] then some 0 else none
  | c :: t =>
    if List.isPrefixOf pat (c :: t) then some 0
    else (strIndex t pat).map (· + 1)

/-- The pattern `pat` occurs in `s` at index `i`. -/
def occursAt (pat s : List Char) (i : Nat) : Bool :=
  List.isPrefixOf pat (s.drop i)

/-- Embeds `util.UnFqdn` from
`cert-manager/pkg/issuer/acme/dns/util`, which is
`strings.TrimSuffix(name, ".")`: strip one trailing dot when present. -/
def UnFqdn (s : String) : String :=
  if s.toList.getLast? = some '.' then String.mk s.toList.dropLast else s

/-- Embeds `getSubDomain` (main.go:216-222):
if `"." + domain` occurs in `fqdn`, return the prefix of `fqdn` before the
first occurrence; otherwise return `util.UnFqdn(fqdn)`. -/
def getSubDomain (domain fqdn : String) : String :=
  match strIndex fqdn.toList ('.' :: domain.toList) with
  | some idx => String.mk (fqdn.toList.take idx)
  | none => UnFqdn fqdn

/-- The subdomain computation as invoked by `Present`/`CleanUp`
(main.go:159-160, 176-177): the resolved zone is un-rooted first. -/
def subdomain (zone fqdn : String) : String :=
  getSubDomain (UnFqdn zone) fqdn

/-- Embeds `corev1.SecretKeySelector` restricted to the fields the program
reads: the secret name and the data key. -/
structure SecretKeySelector where
  Name : String
  Key : String
  deriving DecidableEq

/-- Embeds `ovhDNSProviderConfig` (main.go:63-68). -/
structure ovhDNSProviderConfig where
  Endpoint : String
  ApplicationKey : String
  ApplicationSecretRef : SecretKeySelector
  ConsumerKey : String
  deriving DecidableEq

/-- Embeds `v1alpha1.ChallengeRequest` restricted to the fields the program
reads. `Config` is the raw JSON payload (`none` when absent). -/
structure ChallengeRequest where
  ResolvedZone : String
  ResolvedFQDN : String
  Key : String
  Config : Option String
  ResourceNamespace : String
  AllowAmbientCredentials : Bool
  deriving DecidableEq

/-- The four credential strings handed to `ovh.NewClient` (main.go:129).
The external client library itself is out of scope; constructing it is
modelled as packaging these four values. -/
structure OvhCredentials where
  endpoint : String
  applicationKey : String
  applicationSecret : String
  consumerKey : String
  deriving DecidableEq

/-- Embeds `validate` (main.go:92-111). `none` means no error; `some msg`
is the error message returned. -/
def validate (cfg : ovhDNSProviderConfig) (allowAmbientCredentials : Bool) : Option String :=
  if allowAmbientCredentials then none
  else if cfg.Endpoint == "" then some "no endpoint provided in OVH config"
  else if cfg.ApplicationKey == "" then some "no application key provided in OVH config"
  else if cfg.ApplicationSecretRef.Name == "" then some "no application secret provided in OVH config"
  else if cfg.ConsumerKey == "" then some "no consumer key provided in OVH config"
  else none

/-- Embeds `loadConfig` (main.go:203-214). The external `json.Unmarshal` is
an oracle parameter: on a present payload its result is either passed
through or wrapped in the decode-error message, exactly as in the source. -/
def loadConfig (unmarshal : String → Except String ovhDNSProviderConfig) :
    Option String → Except String ovhDNSProviderConfig
  | none => Except.ok ⟨"", "", ⟨"", ""⟩, ""⟩
  | some raw =>
    match unmarshal raw with
    | Except.error e => Except.error ("error decoding OVH config: " ++ e)
    | Except.ok cfg => Except.ok cfg

/-- A Kubernetes secret store: namespace and secret name to either an error
(e.g. not-found, propagated verbatim by the program) or the data mapping
stored in the secret. -/
def SecretStore := String → String → Except String (List (String × String))

/-- A single-quote character as a string, used in the embedded Go error
format `%s/%s` surrounded by quotes. -/
def squote : String := String.mk [Char.ofNat 39]

/-- Embeds the `secret` method (main.go:132-147). -/
def secret (store : SecretStore) (ref : SecretKeySelector) (ns : String) :
    Except String String :=
  if ref.Name == "" then Except.ok ""
  else
    match store ns ref.Name with
    | Except.error e => Except.error e
    | Except.ok data =>
      match data.lookup ref.Key with
      | none =>
        Except.error ("key not found \"" ++ ref.Key ++ "\" in secret " ++
          squote ++ ns ++ "/" ++ ref.Name ++ squote)
      | some v => Except.ok v

/-- Embeds the `ovhClient` method (main.go:113-130): decode config,
validate it, resolve the application secret, build the client. -/
def ovhClient (unmarshal : String → Except String ovhDNSProviderConfig)
    (store : SecretStore) (ch : ChallengeRequest) : Except String OvhCredentials :=
  match loadConfig unmarshal ch.Config with
  | Except.error e => Except.error e
  | Except.ok cfg =>
    match validate cfg ch.AllowAmbientCredentials with
    | some e => Except.error e
    | none =>
      match secret store cfg.ApplicationSecretRef ch.ResourceNamespace with
      | Except.error e => Except.error e
      | Except.ok applicationSecret =>
        Except.ok ⟨cfg.Endpoint, cfg.ApplicationKey, applicationSecret, cfg.ConsumerKey⟩

/-- Embeds `ovhZoneRecord` (main.go:74-80). -/
structure ovhZoneRecord where
  Id : Int
  FieldType : String
  SubDomain : String
  Target : String
  TTL : Nat
  deriving DecidableEq

/-- The remote OVH zone for one domain, owned by the provider: deployment
status, the stored records, and the next identifier the provider assigns. -/
structure ZoneState where
  isDeployed : Bool
  records : List ovhZoneRecord
  nextId : Int
  deriving DecidableEq

/-- One HTTP call against the remote zone API, as issued by the program
(the observable trace of a run). -/
inductive ApiCall where
  | getStatus (domain : String)
  | listRecords (domain fieldType subDomain : String)
  | getRecord (domain : String) (id : Int)
  | postRecord (domain fieldType subDomain target : String) (ttl : Nat)
  | deleteRecord (domain : String) (id : Int)
  | postRefresh (domain : String)
  deriving DecidableEq

/-- Transport-failure injection: `some msg` makes that API call fail with
underlying error message `msg`; `none` lets it reach the zone. -/
def FailOracle := ApiCall → Option String

/-- The always-successful transport. -/
def noFail : FailOracle := fun _ => none

/-- Embeds `validateZone` (main.go:260-272). -/
def validateZone (fail : FailOracle) (domain : String) (s : ZoneState) :
    Except String Unit × ZoneState × List ApiCall :=
  let url := "/domain/zone/" ++ domain ++ "/status"
  let call := ApiCall.getStatus domain
  match fail call with
  | some msg => (Except.error ("OVH API call failed: GET " ++ url ++ " - " ++ msg), s, [call])
  | none =>
    if !s.isDeployed then
      (Except.error ("OVH zone not deployed for domain " ++ domain), s, [call])
    else
      (Except.ok (), s, [call])

/-- Embeds `listRecords` (main.go:274-282): the provider answers with the
identifiers of the records matching the field type and subdomain. -/
def listRecords (fail : FailOracle) (domain fieldType subDomain : String) (s : ZoneState) :
    Except String (List Int) × ZoneState × List ApiCall :=
  let url := "/domain/zone/" ++ domain ++ "/record?fieldType=" ++ fieldType ++
    "&subDomain=" ++ subDomain
  let call := ApiCall.listRecords domain fieldType subDomain
  match fail call with
  | some msg => (Except.error ("OVH API call failed: GET " ++ url ++ " - " ++ msg), s, [call])
  | none =>
    (Except.ok ((s.records.filter
        (fun r => r.FieldType == fieldType && r.SubDomain == subDomain)).map
        (fun r => r.Id)), s, [call])

/-- Embeds `getRecord` (main.go:284-292): the provider answers with the
record carrying the requested identifier, or a not-found failure. -/
def getRecord (fail : FailOracle) (domain : String) (id : Int) (s : ZoneState) :
    Except String ovhZoneRecord × ZoneState × List ApiCall :=
  let url := "/domain/zone/" ++ domain ++ "/record/" ++ toString id
  let call := ApiCall.getRecord domain id
  match fail call with
  | some msg => (Except.error ("OVH API call failed: GET " ++ url ++ " - " ++ msg), s, [call])
  | none =>
    match s.records.find? (fun r => r.Id == id) with
    | some r => (Except.ok r, s, [call])
    | none => (Except.error ("OVH API call failed: GET " ++ url ++ " - 404 Not Found"), s, [call])

/-- Embeds `deleteRecord` (main.go:294-301): the provider removes the
record carrying the requested identifier. -/
def deleteRecord (fail : FailOracle) (domain : String) (id : Int) (s : ZoneState) :
    Except String Unit × ZoneState × List ApiCall :=
  let url := "/domain/zone/" ++ domain ++ "/record/" ++ toString id
  let call := ApiCall.deleteRecord domain id
  match fail call with
  | some msg => (Except.error ("OVH API call failed: DELETE " ++ url ++ " - " ++ msg), s, [call])
  | none => (Except.ok (), { s with records := s.records.filter (fun r => !(r.Id == id)) }, [call])

/-- Embeds `createRecord` (main.go:303-318): POST a record with TTL 60; the
provider assigns the next identifier and stores the record. -/
def createRecord (fail : FailOracle) (domain fieldType subDomain target : String) (s : ZoneState) :
    Except String ovhZoneRecord × ZoneState × List ApiCall :=
  let url := "/domain/zone/" ++ domain ++ "/record"
  let call := ApiCall.postRecord domain fieldType subDomain target 60
  match fail call with
  | some msg => (Except.error ("OVH API call failed: POST " ++ url ++ " - " ++ msg), s, [call])
  | none =>
    let record : ovhZoneRecord := ⟨s.nextId, fieldType, subDomain, target, 60⟩
    (Except.ok record,
      { s with records := s.records ++ [record], nextId := s.nextId + 1 }, [call])

/-- Embeds `refreshRecords` (main.go:320-328). -/
def refreshRecords (fail : FailOracle) (domain : String) (s : ZoneState) :
    Except String Unit × ZoneState × List ApiCall :=
  let url := "/domain/zone/" ++ domain ++ "/refresh"
  let call := ApiCall.postRefresh domain
  match fail call with
  | some msg => (Except.error ("OVH API call failed: POST " ++ url ++ " - " ++ msg), s, [call])
  | none => (Except.ok (), s, [call])

/-- Embeds `addTXTRecord` (main.go:224-235): validate the zone, create the
record, refresh, propagating the first error. -/
def addTXTRecord (fail : FailOracle) (domain subDomain target : String) (s : ZoneState) :
    Except String Unit × ZoneState × List ApiCall :=
  match validateZone fail domain s with
  | (Except.error e, s₁, tr₁) => (Except.error e, s₁, tr₁)
  | (Except.ok _, s₁, tr₁) =>
    match createRecord fail domain "TXT" subDomain target s₁ with
    | (Except.error e, s₂, tr₂) => (Except.error e, s₂, tr₁ ++ tr₂)
    | (Except.ok _, s₂, tr₂) =>
      let next := refreshRecords fail domain s₂
      (next.1, next.2.1, tr₁ ++ tr₂ ++ next.2.2)

/-- Embeds the `for` loop of `removeTXTRecord` (main.go:243-255): for each
listed identifier, get the record, skip it when its target differs, delete
it otherwise, aborting on the first error. -/
def removeTXTRecordLoop (fail : FailOracle) (domain target : String) :
    List Int → ZoneState → Except String Unit × ZoneState × List ApiCall
  | [], s => (Except.ok (), s, [])
  | id :: rest, s =>
    match getRecord fail domain id s with
    | (Except.error e, s₁, tr₁) => (Except.error e, s₁, tr₁)
    | (Except.ok record, s₁, tr₁) =>
      if record.Target != target then
        let next := removeTXTRecordLoop fail domain target rest s₁
        (next.1, next.2.1, tr₁ ++ next.2.2)
      else
        match deleteRecord fail domain id s₁ with
        | (Except.error e, s₂, tr₂) => (Except.error e, s₂, tr₁ ++ tr₂)
        | (Except.ok _, s₂, tr₂) =>
          let next := removeTXTRecordLoop fail domain target rest s₂
          (next.1, next.2.1, tr₁ ++ tr₂ ++ next.2.2)

/-- Embeds `removeTXTRecord` (main.go:237-258): list the TXT records at the
subdomain, run the deletion loop, then refresh, propagating the first
error. -/
def removeTXTRecord (fail : FailOracle) (domain subDomain target : String) (s : ZoneState) :
    Except String Unit × ZoneState × List ApiCall :=
  match listRecords fail domain "TXT" subDomain s with
  | (Except.error e, s₁, tr₁) => (Except.error e, s₁, tr₁)
  | (Except.ok ids, s₁, tr₁) =>
    match removeTXTRecordLoop fail domain target ids s₁ with
    | (Except.error e, s₂, tr₂) => (Except.error e, s₂, tr₁ ++ tr₂)
    | (Except.ok _, s₂, tr₂) =>
      let next := refreshRecords fail domain s₂
      (next.1, next.2.1, tr₁ ++ tr₂ ++ next.2.2)

/-- Embeds `Present` (main.go:154-163). -/
def Present (unmarshal : String → Except String ovhDNSProviderConfig)
    (store : SecretStore) (fail : FailOracle) (ch : ChallengeRequest) (s : ZoneState) :
    Except String Unit × ZoneState × List ApiCall :=
  match ovhClient unmarshal store ch with
  | Except.error e => (Except.error e, s, [])
  | Except.ok _ =>
    addTXTRecord fail (UnFqdn ch.ResolvedZone)
      (getSubDomain (UnFqdn ch.ResolvedZone) ch.ResolvedFQDN) ch.Key s

/-- Embeds `CleanUp` (main.go:171-180). -/
def CleanUp (unmarshal : String → Except String ovhDNSProviderConfig)
    (store : SecretStore) (fail : FailOracle) (ch : ChallengeRequest) (s : ZoneState) :
    Except String Unit × ZoneState × List ApiCall :=
  match ovhClient unmarshal store ch with
  | Except.error e => (Except.error e, s, [])
  | Except.ok _ =>
    removeTXTRecord fail (UnFqdn ch.ResolvedZone)
      (getSubDomain (UnFqdn ch.ResolvedZone) ch.ResolvedFQDN) ch.Key s

/-- The identifiers of the getRecord calls in a trace, in order. -/
def getRecordCallIds : List ApiCall → List Int
  | [] => []
  | ApiCall.getRecord _ id :: rest => id :: getRecordCallIds rest
  | _ :: rest => getRecordCallIds rest

theorem strIndex_occursAt {s pat : List Char} {i : Nat}
    (h : strIndex s pat = some i) : occursAt pat s i = true := by
  induction s generalizing i with
  | nil =>
    unfold strIndex at h
    split at h
    · rename_i hpre
      cases h
      simpa [occursAt] using hpre
    · cases h
  | cons c t ih =>
    unfold strIndex at h
    split at h
    · rename_i hpre
      cases h
      simpa [occursAt] using hpre
    · rcases Option.map_eq_some'.mp h with ⟨j, hj, rfl⟩
      have := ih hj
      simpa [occursAt, List.drop_succ_cons] using this

theorem strIndex_minimal {s pat : List Char} {i : Nat}
    (h : strIndex s pat = some i) : ∀ j, j < i → occursAt pat s j = false := by
  induction s generalizing i with
  | nil =>
    intro j hj
    unfold strIndex at h
    split at h
    · cases h; omega
    · cases h
  | cons c t ih =>
    intro j hj
    unfold strIndex at h
    split at h
    · cases h; omega
    · rcases Option.map_eq_some'.mp h with ⟨k, hk, rfl⟩
      cases j with
      | zero =>
        rename_i hnot
        cases hpre : List.isPrefixOf pat (c :: t)
        · exact hpre
        · exact absurd hpre hnot
      | succ j' =>
        have := ih hk j' (by omega)
        simpa [occursAt, List.drop_succ_cons] using this

theorem strIndex_complete {s pat : List Char} {j : Nat}
    (h : occursAt pat s j = true) :
    ∃ i, strIndex s pat = some i ∧ i ≤ j := by
  induction s generalizing j with
  | nil =>
    refine ⟨0, ?_, Nat.zero_le _⟩
    have : List.isPrefixOf pat ([] : List Char) = true := by
      simpa [occursAt, List.drop_nil] using h
    simp [strIndex, this]
  | cons c t ih =>
    by_cases hpre : List.isPrefixOf pat (c :: t) = true
    · exact ⟨0, by simp [strIndex, hpre], Nat.zero_le _⟩
    · cases j with
      | zero =>
        exact absurd (by simpa [occursAt] using h) hpre
      | succ j' =>
        have h' : occursAt pat t j' = true := by
          simpa [occursAt, List.drop_succ_cons] using h
        rcases ih h' with ⟨i, hi, hle⟩
        refine ⟨i + 1, ?_, by omega⟩
        simp [strIndex, hpre, hi]

theorem strIndex_none {s pat : List Char}
    (h : strIndex s pat = none) : ∀ i, occursAt pat s i = false := by
  intro i
  cases hocc : occursAt pat s i
  · rfl
  · rcases strIndex_complete hocc with ⟨k, hk, _⟩
    rw [h] at hk
    cases hk

theorem occursAt_append_middle (pre pat rest : List Char) :
    occursAt pat (pre ++ (pat ++ rest)) pre.length = true := by
  unfold occursAt
  rw [List.drop_left]
  exact List.isPrefixOf_iff_prefix.mpr (List.prefix_append pat rest)

theorem occursAt_bound {pat s : List Char} {i : Nat}
    (h : occursAt pat s i = true) (hne : 0 < pat.length) :
    i + pat.length ≤ s.length := by
  unfold occursAt at h
  have hp : pat <+: s.drop i := List.isPrefixOf_iff_prefix.mp h
  have hlen := hp.length_le
  rw [List.length_drop] at hlen
  omega

theorem strIndex_eq_none_of_bounded {s pat : List Char} (hne : 0 < pat.length)
    (h : ∀ i, i ≤ s.length → occursAt pat s i = false) : strIndex s pat = none := by
  cases hidx : strIndex s pat with
  | none => rfl
  | some k =>
    have hk := strIndex_occursAt hidx
    have hb := occursAt_bound hk hne
    have hfalse := h k (by omega)
    rw [hk] at hfalse
    simp at hfalse

theorem strIndex_eq_some_first {s pat : List Char} {i : Nat}
    (hocc : occursAt pat s i = true)
    (hmin : ∀ j, j < i → occursAt pat s j = false) : strIndex s pat = some i := by
  rcases strIndex_complete hocc with ⟨k, hk, hle⟩
  rcases Nat.lt_or_ge k i with hlt | hge
  · have h1 := strIndex_occursAt hk
    have h2 := hmin k hlt
    rw [h1] at h2
    simp at h2
  · have hki : k = i := by omega
    rwa [hki] at hk

/-- C10: `getSubDomain` returns the prefix of `fqdn` strictly before the
first (leftmost) occurrence of `"." ++ domain` whenever one exists — even
when that occurrence is not a suffix of `fqdn` — and otherwise returns
`fqdn` with one trailing dot removed when present. (As a Lean function of
its two string arguments it is pure, deterministic and total by
construction.) -/
theorem getSubDomain_characterization :
    (∀ (domain fqdn : String) (i : Nat),
      occursAt ('.' :: domain.toList) fqdn.toList i = true →
      (∀ j, j < i → occursAt ('.' :: domain.toList) fqdn.toList j = false) →
      getSubDomain domain fqdn = String.mk (fqdn.toList.take i)) ∧
    (∀ domain fqdn : String,
      (∀ i, i ≤ fqdn.toList.length →
        occursAt ('.' :: domain.toList) fqdn.toList i = false) →
      getSubDomain domain fqdn =
        if fqdn.toList.getLast? = some '.' then String.mk fqdn.toList.dropLast
        else fqdn) := by
  constructor
  · intro domain fqdn i hocc hmin
    unfold getSubDomain
    rw [strIndex_eq_some_first hocc hmin]
  · intro domain fqdn h
    unfold getSubDomain
    rw [strIndex_eq_none_of_bounded (by simp) h]
    rfl

/-- Witness for C10: the leftmost-occurrence behaviour on
"a.example.com.b.example.com" (yielding "a", not "a.example.com.b"), and
the fallback on an fqdn sharing no suffix with the domain. -/
theorem getSubDomain_characterization_witness :
    getSubDomain "example.com" "a.example.com.b.example.com" = "a" ∧
    getSubDomain "example.org" "foo.example.net." = "foo.example.net" := by
  constructor
  · have h := getSubDomain_characterization.1 "example.com"
      "a.example.com.b.example.com" 1 (by decide) (by decide)
    rw [h]; decide
  · have h := getSubDomain_characterization.2 "example.org" "foo.example.net." (by decide)
    rw [h]; decide

/-- C9: when `"." ++ domain` does not occur in `fqdn` (no occurrence at any
position of the fqdn), `getSubDomain` returns `fqdn` with a single trailing
root terminator stripped when present, and `fqdn` unchanged otherwise. -/
theorem getSubDomain_no_occurrence_fallback :
    ∀ domain fqdn : String,
      (∀ i, i ≤ fqdn.toList.length →
        occursAt ('.' :: domain.toList) fqdn.toList i = false) →
      getSubDomain domain fqdn =
        if fqdn.toList.getLast? = some '.' then String.mk fqdn.toList.dropLast
        else fqdn := by
  intro domain fqdn h
  unfold getSubDomain
  rw [strIndex_eq_none_of_bounded (by simp) h]
  rfl

/-- Witness for C9: a rooted fqdn loses exactly its trailing dot, an
unrooted one is returned unchanged. -/
theorem getSubDomain_no_occurrence_fallback_witness :
    getSubDomain "other.org" "www.example.net." = "www.example.net" ∧
    getSubDomain "other.org" "www.example.net" = "www.example.net" := by
  constructor
  · have h := getSubDomain_no_occurrence_fallback "other.org" "www.example.net." (by decide)
    rw [h]; decide
  · have h := getSubDomain_no_occurrence_fallback "other.org" "www.example.net" (by decide)
    rw [h]; decide

/-- C2 is false as stated: with zone "example.com" the fqdn
"a.example.com.b.example.com" ends with "." ++ zone, yet the subdomain
computation returns the prefix before the first occurrence of
"." ++ zone ("a"), not the prefix preceding the suffix occurrence
("a.example.com.b"). -/
theorem subdomain_suffix_claim_counterexample :
    "a.example.com.b.example.com" = "a.example.com.b" ++ "." ++ "example.com" ∧
    subdomain "example.com" "a.example.com.b.example.com" = "a" ∧
    ("a" : String) ≠ "a.example.com.b" := by
  refine ⟨by decide, by decide, by decide⟩

/-- C2 amended: for all (zone, fqdn) where fqdn ends with "." + zone —
ignoring a possible trailing root terminator on either input — and where
that suffix position is the only occurrence of "." + zone in fqdn,
`subdomain(zone, fqdn)` returns exactly the prefix of fqdn preceding that
suffix. (Without the uniqueness condition the code returns the prefix
before the leftmost occurrence instead.) -/
theorem subdomain_unique_suffix_occurrence :
    ∀ (zone fqdn : String) (pre : List Char),
      (fqdn.toList = pre ++ ('.' :: (UnFqdn zone).toList) ∨
       fqdn.toList = (pre ++ ('.' :: (UnFqdn zone).toList)) ++ ['.']) →
      (∀ i, i ≤ fqdn.toList.length →
        occursAt ('.' :: (UnFqdn zone).toList) fqdn.toList i = true →
        i = pre.length) →
      subdomain zone fqdn = String.mk pre := by
  intro zone fqdn pre hsuf huniq
  have hocc : occursAt ('.' :: (UnFqdn zone).toList) fqdn.toList pre.length = true := by
    rcases hsuf with h | h
    · rw [h]
      have hm := occursAt_append_middle pre ('.' :: (UnFqdn zone).toList) []
      simpa using hm
    · rw [h, List.append_assoc]
      exact occursAt_append_middle pre ('.' :: (UnFqdn zone).toList) ['.']
  have hmin : ∀ j, j < pre.length →
      occursAt ('.' :: (UnFqdn zone).toList) fqdn.toList j = false := by
    intro j hj
    cases hc : occursAt ('.' :: (UnFqdn zone).toList) fqdn.toList j with
    | false => rfl
    | true =>
      have hb := occursAt_bound hc (by simp)
      have hju := huniq j (by omega) hc
      omega
  have hidx := strIndex_eq_some_first hocc hmin
  unfold subdomain getSubDomain
  rw [hidx]
  show String.mk (fqdn.toList.take pre.length) = String.mk pre
  rcases hsuf with h | h
  · rw [h, List.take_left]
  · rw [h, List.append_assoc, List.take_left]

/-- Witness for amended C2: the example given in the spec, with trailing
root terminators on both inputs. -/
theorem subdomain_unique_suffix_occurrence_witness :
    subdomain "example.com." "_acme-challenge.example.com." = "_acme-challenge" := by
  have h := subdomain_unique_suffix_occurrence "example.com." "_acme-challenge.example.com."
    "_acme-challenge".toList (Or.inr (by decide)) (by decide)
  rw [h]; decide

theorem find?_record_id {s : List ovhZoneRecord} {id : Int}
    (h : ∃ r ∈ s, r.Id = id) :
    ∃ r, s.find? (fun r2 => r2.Id == id) = some r ∧ r ∈ s ∧ r.Id = id := by
  have hsome : (s.find? (fun r2 => r2.Id == id)).isSome := by
    rw [List.find?_isSome]
    rcases h with ⟨r, hr, hid⟩
    exact ⟨r, hr, by simp [hid]⟩
  rcases Option.isSome_iff_exists.mp hsome with ⟨r, hr⟩
  refine ⟨r, hr, List.mem_of_find?_eq_some hr, ?_⟩
  have hp := List.find?_some hr
  simpa using hp

theorem removeTXTRecordLoop_noFail_ok (domain target : String) :
    ∀ (ids : List Int) (s : ZoneState),
      (∀ id ∈ ids, ∃ r ∈ s.records, r.Id = id) →
      ids.Nodup →
      (s.records.map (fun r => r.Id)).Nodup →
      (removeTXTRecordLoop noFail domain target ids s).1 = Except.ok () ∧
      (removeTXTRecordLoop noFail domain target ids s).2.1 =
        { s with records :=
            s.records.filter (fun r => !(ids.contains r.Id && r.Target == target)) } := by
  intro ids
  induction ids with
  | nil =>
    intro s _ _ _
    refine ⟨rfl, ?_⟩
    simp [removeTXTRecordLoop]
  | cons id rest ih =>
    intro s h1 h2 h3
    rcases find?_record_id (h1 id (List.mem_cons_self id rest)) with ⟨r, hfind, hrmem, hrid⟩
    have hget : getRecord noFail domain id s =
        (Except.ok r, s, [ApiCall.getRecord domain id]) := by
      simp [getRecord, noFail, hfind]
    have huniq : ∀ r2 ∈ s.records, r2.Id = id → r2 = r := by
      intro r2 hr2 hid2
      exact List.inj_on_of_nodup_map h3 hr2 hrmem (by rw [hid2, hrid])
    by_cases htgt : r.Target = target
    · have hbne : (r.Target != target) = false := by simp [htgt]
      have hdel : deleteRecord noFail domain id s =
          (Except.ok (),
           { s with records := s.records.filter (fun r2 => !(r2.Id == id)) },
           [ApiCall.deleteRecord domain id]) := by
        simp [deleteRecord, noFail]
      have h1' : ∀ id2 ∈ rest,
          ∃ r2 ∈ (s.records.filter (fun r2 => !(r2.Id == id))), r2.Id = id2 := by
        intro id2 hid2
        rcases h1 id2 (List.mem_cons_of_mem id hid2) with ⟨r2, hr2, hr2id⟩
        refine ⟨r2, ?_, hr2id⟩
        simp only [List.mem_filter]
        refine ⟨hr2, ?_⟩
        have hne : id2 ≠ id := by
          intro hcon
          rw [hcon] at hid2
          exact (List.nodup_cons.mp h2).1 hid2
        simp [hr2id, hne]
      have h3' : ((s.records.filter (fun r2 => !(r2.Id == id))).map (fun r2 => r2.Id)).Nodup :=
        List.Nodup.sublist (List.Sublist.map _ (List.filter_sublist _)) h3
      have ihres := ih { s with records := s.records.filter (fun r2 => !(r2.Id == id)) }
        h1' (List.nodup_cons.mp h2).2 h3'
      constructor
      · simp only [removeTXTRecordLoop, hget, hbne, Bool.false_eq_true, if_false, hdel]
        exact ihres.1
      · simp only [removeTXTRecordLoop, hget, hbne, Bool.false_eq_true, if_false, hdel]
        rw [ihres.2]
        simp only [List.filter_filter]
        congr 1
        apply List.filter_congr
        intro r2 hr2
        by_cases hid2 : r2.Id = id
        · have hreq : r2 = r := huniq r2 hr2 hid2
          simp [hid2, hreq, htgt, hrid]
        · simp [hid2]
    · have hbne : (r.Target != target) = true := by simp [htgt]
      have h1' : ∀ id2 ∈ rest, ∃ r2 ∈ s.records, r2.Id = id2 :=
        fun id2 hid2 => h1 id2 (List.mem_cons_of_mem id hid2)
      have ihres := ih s h1' (List.nodup_cons.mp h2).2 h3
      constructor
      · simp only [removeTXTRecordLoop, hget, hbne, if_true]
        exact ihres.1
      · simp only [removeTXTRecordLoop, hget, hbne, if_true]
        rw [ihres.2]
        congr 1
        apply List.filter_congr
        intro r2 hr2
        by_cases hid2 : r2.Id = id
        · have hreq : r2 = r := huniq r2 hr2 hid2
          simp [hid2, hreq, htgt, hrid]
        · simp [hid2]

/-- C1: for every zone state (with provider-unique record identifiers) and
every CleanUp deletion pass with key `target` at `(domain, subDomain)`,
`removeTXTRecord` succeeds and deletes exactly those TXT records at that
subdomain whose target equals `target`: every matching record found in the
listing is deleted and every other record is left in place. -/
theorem removeTXTRecord_deletes_exactly_matching :
    ∀ (domain subDomain target : String) (s : ZoneState),
      (s.records.map (fun r => r.Id)).Nodup →
      (removeTXTRecord noFail domain subDomain target s).1 = Except.ok () ∧
      (removeTXTRecord noFail domain subDomain target s).2.1.records =
        s.records.filter
          (fun r => !(r.FieldType == "TXT" && (r.SubDomain == subDomain &&
            r.Target == target))) := by
  intro domain subDomain target s h3
  have hlist : listRecords noFail domain "TXT" subDomain s =
      (Except.ok ((s.records.filter
          (fun r => r.FieldType == "TXT" && r.SubDomain == subDomain)).map
          (fun r => r.Id)), s,
       [ApiCall.listRecords domain "TXT" subDomain]) := by
    simp [listRecords, noFail]
  set ids := (s.records.filter
      (fun r => r.FieldType == "TXT" && r.SubDomain == subDomain)).map
      (fun r => r.Id) with hids
  have h1 : ∀ id ∈ ids, ∃ r ∈ s.records, r.Id = id := by
    intro id hid
    rw [hids] at hid
    rcases List.mem_map.mp hid with ⟨r, hr, hrid⟩
    exact ⟨r, (List.mem_filter.mp hr).1, hrid⟩
  have h2 : ids.Nodup :=
    List.Nodup.sublist (List.Sublist.map _ (List.filter_sublist _)) h3
  have hloop := removeTXTRecordLoop_noFail_ok domain target ids s h1 h2 h3
  rcases hok : removeTXTRecordLoop noFail domain target ids s with ⟨res, s2, tr2⟩
  rw [hok] at hloop
  simp only at hloop
  have hres : res = Except.ok () := hloop.1
  have hs2rec : s2.records =
      s.records.filter (fun r => !(ids.contains r.Id && r.Target == target)) := by
    rw [hloop.2]
  have hcontains : ∀ r2 ∈ s.records,
      ids.contains r2.Id = (r2.FieldType == "TXT" && r2.SubDomain == subDomain) := by
    intro r2 hr2
    by_cases hq : (r2.FieldType == "TXT" && r2.SubDomain == subDomain) = true
    · rw [hq]
      rw [hids]
      have : r2.Id ∈ (s.records.filter
          (fun r => r.FieldType == "TXT" && r.SubDomain == subDomain)).map
          (fun r => r.Id) :=
        List.mem_map.mpr ⟨r2, List.mem_filter.mpr ⟨hr2, hq⟩, rfl⟩
      exact List.elem_iff.mpr this
    · have hq' : (r2.FieldType == "TXT" && r2.SubDomain == subDomain) = false :=
        Bool.eq_false_iff.mpr hq
      rw [hq']
      cases hc : ids.contains r2.Id with
      | false => rfl
      | true =>
        exfalso
        have hmem := List.elem_iff.mp hc
        rw [hids] at hmem
        rcases List.mem_map.mp hmem with ⟨r3, hr3, hr3id⟩
        have hr3mem := (List.mem_filter.mp hr3).1
        have hr3q := (List.mem_filter.mp hr3).2
        have : r3 = r2 := List.inj_on_of_nodup_map h3 hr3mem hr2 hr3id
        rw [this] at hr3q
        rw [hr3q] at hq'
        cases hq'
  have hmain : removeTXTRecord noFail domain subDomain target s =
      (Except.ok (), s2,
       [ApiCall.listRecords domain "TXT" subDomain] ++ tr2 ++ [ApiCall.postRefresh domain]) := by
    unfold removeTXTRecord
    rw [hlist]
    simp only
    rw [hok, hres]
    simp [refreshRecords, noFail]
  refine ⟨by rw [hmain], ?_⟩
  rw [hmain]
  show s2.records = _
  rw [hs2rec]
  apply List.filter_congr
  intro r2 hr2
  rw [hcontains r2 hr2]
  by_cases ha : (r2.FieldType == "TXT") = true <;>
    by_cases hb : (r2.SubDomain == subDomain) = true <;>
      by_cases hc : (r2.Target == target) = true <;>
        simp [ha, hb, hc]

/-- Witness for C1: a zone holding two TXT records at the same subdomain
with different targets; CleanUp with the first key removes only the first
record. -/
theorem removeTXTRecord_deletes_exactly_matching_witness :
    (removeTXTRecord noFail "example.com" "_acme-challenge" "key1"
      ⟨true, [⟨1, "TXT", "_acme-challenge", "key1", 60⟩,
              ⟨2, "TXT", "_acme-challenge", "key2", 60⟩], 3⟩).1 = Except.ok () ∧
    (removeTXTRecord noFail "example.com" "_acme-challenge" "key1"
      ⟨true, [⟨1, "TXT", "_acme-challenge", "key1", 60⟩,
              ⟨2, "TXT", "_acme-challenge", "key2", 60⟩], 3⟩).2.1.records =
      [⟨2, "TXT", "_acme-challenge", "key2", 60⟩] := by
  have h := removeTXTRecord_deletes_exactly_matching "example.com" "_acme-challenge" "key1"
    ⟨true, [⟨1, "TXT", "_acme-challenge", "key1", 60⟩,
            ⟨2, "TXT", "_acme-challenge", "key2", 60⟩], 3⟩ (by decide)
  exact ⟨h.1, by rw [h.2]; decide⟩

theorem getRecordCallIds_append (a b : List ApiCall) :
    getRecordCallIds (a ++ b) = getRecordCallIds a ++ getRecordCallIds b := by
  induction a with
  | nil => rfl
  | cons c rest ih => cases c <;> simp [getRecordCallIds, ih]

/-- The record identifiers a successful listing returns (main.go:274-282
interpreted against the zone). -/
def listedIds (subDomain : String) (s : ZoneState) : List Int :=
  (s.records.filter (fun r => r.FieldType == "TXT" && r.SubDomain == subDomain)).map
    (fun r => r.Id)

theorem removeTXTRecordLoop_error (fail : FailOracle) (domain target : String) :
    ∀ (ids : List Int) (s : ZoneState) (e : String),
      (removeTXTRecordLoop fail domain target ids s).1 = Except.error e →
      List.Sublist (removeTXTRecordLoop fail domain target ids s).2.1.records s.records ∧
      (∀ c ∈ (removeTXTRecordLoop fail domain target ids s).2.2,
        ∃ id ∈ ids, c = ApiCall.getRecord domain id ∨ c = ApiCall.deleteRecord domain id) ∧
      ∃ k, k ≤ ids.length ∧
        getRecordCallIds ((removeTXTRecordLoop fail domain target ids s).2.2) =
          ids.take k := by
  intro ids
  induction ids with
  | nil =>
    intro s e h
    simp [removeTXTRecordLoop] at h
  | cons id rest ih =>
    intro s e h
    cases hfs : fail (ApiCall.getRecord domain id) with
    | some msg =>
      have hget : getRecord fail domain id s =
          (Except.error ("OVH API call failed: GET " ++
            ("/domain/zone/" ++ domain ++ "/record/" ++ toString id) ++ " - " ++ msg), s,
           [ApiCall.getRecord domain id]) := by
        simp [getRecord, hfs]
      simp only [removeTXTRecordLoop, hget]
      refine ⟨List.Sublist.refl _, ?_, 1, by simp, by simp [getRecordCallIds]⟩
      intro c hc
      simp at hc
      exact ⟨id, List.mem_cons_self id rest, Or.inl hc⟩
    | none =>
      cases hfind : s.records.find? (fun r2 => r2.Id == id) with
      | none =>
        have hget : getRecord fail domain id s =
            (Except.error ("OVH API call failed: GET " ++
              ("/domain/zone/" ++ domain ++ "/record/" ++ toString id) ++
              " - 404 Not Found"), s,
             [ApiCall.getRecord domain id]) := by
          simp [getRecord, hfs, hfind]
        simp only [removeTXTRecordLoop, hget]
        refine ⟨List.Sublist.refl _, ?_, 1, by simp, by simp [getRecordCallIds]⟩
        intro c hc
        simp at hc
        exact ⟨id, List.mem_cons_self id rest, Or.inl hc⟩
      | some r =>
        have hget : getRecord fail domain id s =
            (Except.ok r, s, [ApiCall.getRecord domain id]) := by
          simp [getRecord, hfs, hfind]
        by_cases htgt : r.Target = target
        · have hbne : (r.Target != target) = false := by simp [htgt]
          cases hfd : fail (ApiCall.deleteRecord domain id) with
          | some msg =>
            have hdel : deleteRecord fail domain id s =
                (Except.error ("OVH API call failed: DELETE " ++
                  ("/domain/zone/" ++ domain ++ "/record/" ++ toString id) ++
                  " - " ++ msg), s,
                 [ApiCall.deleteRecord domain id]) := by
              simp [deleteRecord, hfd]
            simp only [removeTXTRecordLoop, hget, hbne, Bool.false_eq_true, if_false, hdel]
            refine ⟨List.Sublist.refl _, ?_, 1, by simp, by simp [getRecordCallIds]⟩
            intro c hc
            simp at hc
            rcases hc with hc | hc
            · exact ⟨id, List.mem_cons_self id rest, Or.inl hc⟩
            · exact ⟨id, List.mem_cons_self id rest, Or.inr hc⟩
          | none =>
            have hdel : deleteRecord fail domain id s =
                (Except.ok (),
                 { s with records := s.records.filter (fun r2 => !(r2.Id == id)) },
                 [ApiCall.deleteRecord domain id]) := by
              simp [deleteRecord, hfd]
            simp only [removeTXTRecordLoop, hget, hbne, Bool.false_eq_true, if_false,
              hdel] at h ⊢
            rcases ih _ e h with ⟨hsub, hcalls, k, hk, hids⟩
            refine ⟨?_, ?_, k + 1, by simp; omega, ?_⟩
            · exact hsub.trans (List.filter_sublist _)
            · intro c hc
              simp at hc
              rcases hc with hc | hc | hc
              · exact ⟨id, List.mem_cons_self id rest, Or.inl hc⟩
              · exact ⟨id, List.mem_cons_self id rest, Or.inr hc⟩
              · rcases hcalls c hc with ⟨id2, hid2, hor⟩
                exact ⟨id2, List.mem_cons_of_mem id hid2, hor⟩
            · rw [getRecordCallIds_append, getRecordCallIds_append]
              simp [getRecordCallIds, hids]
        · have hbne : (r.Target != target) = true := by simp [htgt]
          simp only [removeTXTRecordLoop, hget, hbne, if_true] at h ⊢
          rcases ih _ e h with ⟨hsub, hcalls, k, hk, hids⟩
          refine ⟨hsub, ?_, k + 1, by simp; omega, ?_⟩
          · intro c hc
            simp at hc
            rcases hc with hc | hc
            · exact ⟨id, List.mem_cons_self id rest, Or.inl hc⟩
            · rcases hcalls c hc with ⟨id2, hid2, hor⟩
              exact ⟨id2, List.mem_cons_of_mem id hid2, hor⟩
          · rw [getRecordCallIds_append]
            simp [getRecordCallIds, hids]

/-- C4: when some get or delete in the CleanUp deletion loop fails, the
whole CleanUp pass returns that error at once: the loop processes only an
initial segment of the listed identifiers (the records fetched are
`listedIds.take k` for some `k`), the zone-refresh POST is never issued,
and the final record list is a sublist of the initial one — records
already deleted before the failure stay deleted and nothing is restored. -/
theorem removeTXTRecord_failure_aborts :
    ∀ (fail : FailOracle) (domain subDomain target : String) (s : ZoneState) (e : String),
      fail (ApiCall.listRecords domain "TXT" subDomain) = none →
      (removeTXTRecordLoop fail domain target (listedIds subDomain s) s).1 =
        Except.error e →
      (removeTXTRecord fail domain subDomain target s).1 = Except.error e ∧
      List.Sublist (removeTXTRecord fail domain subDomain target s).2.1.records s.records ∧
      ApiCall.postRefresh domain ∉ (removeTXTRecord fail domain subDomain target s).2.2 ∧
      ∃ k, k ≤ (listedIds subDomain s).length ∧
        getRecordCallIds ((removeTXTRecord fail domain subDomain target s).2.2) =
          (listedIds subDomain s).take k := by
  intro fail domain subDomain target s e hfl h
  have hlist : listRecords fail domain "TXT" subDomain s =
      (Except.ok (listedIds subDomain s), s,
       [ApiCall.listRecords domain "TXT" subDomain]) := by
    simp [listRecords, hfl, listedIds]
  rcases hok : removeTXTRecordLoop fail domain target (listedIds subDomain s) s
    with ⟨res, s2, tr2⟩
  rw [hok] at h
  simp only at h
  subst h
  rcases removeTXTRecordLoop_error fail domain target (listedIds subDomain s) s e
    (by rw [hok]) with ⟨hsub, hcalls, k, hk, hids⟩
  rw [hok] at hsub hcalls hids
  simp only at hsub hcalls hids
  have hmain : removeTXTRecord fail domain subDomain target s =
      (Except.error e, s2, [ApiCall.listRecords domain "TXT" subDomain] ++ tr2) := by
    unfold removeTXTRecord
    rw [hlist]
    simp only
    rw [hok]
  rw [hmain]
  refine ⟨rfl, hsub, ?_, k, hk, ?_⟩
  · intro hmem
    rw [List.mem_append] at hmem
    rcases hmem with hmem | hmem
    · simp at hmem
    · rcases hcalls _ hmem with ⟨id2, _, hor⟩
      rcases hor with hor | hor <;> cases hor
  · rw [getRecordCallIds_append]
    simpa [getRecordCallIds] using hids

/-- Witness for C4: two matching records; the first is fetched and deleted,
fetching the second fails. CleanUp surfaces the wrapped error, skips the
refresh, and the first record stays deleted while the second remains. -/
theorem removeTXTRecord_failure_aborts_witness :
    (removeTXTRecord
      (fun c => if c = ApiCall.getRecord "example.com" 2 then some "boom" else none)
      "example.com" "_acme-challenge" "key1"
      ⟨true, [⟨1, "TXT", "_acme-challenge", "key1", 60⟩,
              ⟨2, "TXT", "_acme-challenge", "key1", 60⟩], 3⟩).1 =
      Except.error
        "OVH API call failed: GET /domain/zone/example.com/record/2 - boom" ∧
    ApiCall.postRefresh "example.com" ∉
      (removeTXTRecord
        (fun c => if c = ApiCall.getRecord "example.com" 2 then some "boom" else none)
        "example.com" "_acme-challenge" "key1"
        ⟨true, [⟨1, "TXT", "_acme-challenge", "key1", 60⟩,
                ⟨2, "TXT", "_acme-challenge", "key1", 60⟩], 3⟩).2.2 := by
  have h := removeTXTRecord_failure_aborts
    (fun c => if c = ApiCall.getRecord "example.com" 2 then some "boom" else none)
    "example.com" "_acme-challenge" "key1"
    ⟨true, [⟨1, "TXT", "_acme-challenge", "key1", 60⟩,
            ⟨2, "TXT", "_acme-challenge", "key1", 60⟩], 3⟩
    "OVH API call failed: GET /domain/zone/example.com/record/2 - boom"
    (by decide) (by rfl)
  exact ⟨h.1, h.2.2.1⟩

/-- C3: when the zone-status check reports the zone as not deployed,
`Present` returns the zone-not-deployed error with the zone untouched, and
its trace is the status GET alone: no record-creation POST and no
zone-refresh POST is issued. -/
theorem present_zone_not_deployed_no_mutation :
    ∀ (unmarshal : String → Except String ovhDNSProviderConfig) (store : SecretStore)
      (fail : FailOracle) (ch : ChallengeRequest) (s : ZoneState) (creds : OvhCredentials),
      ovhClient unmarshal store ch = Except.ok creds →
      fail (ApiCall.getStatus (UnFqdn ch.ResolvedZone)) = none →
      s.isDeployed = false →
      Present unmarshal store fail ch s =
        (Except.error ("OVH zone not deployed for domain " ++ UnFqdn ch.ResolvedZone), s,
         [ApiCall.getStatus (UnFqdn ch.ResolvedZone)]) ∧
      (∀ c ∈ (Present unmarshal store fail ch s).2.2,
        (∀ d ft sd tg ttl, c ≠ ApiCall.postRecord d ft sd tg ttl) ∧
        (∀ d, c ≠ ApiCall.postRefresh d)) := by
  intro um store fail ch s creds hcl hfail hdep
  have hval : validateZone fail (UnFqdn ch.ResolvedZone) s =
      (Except.error ("OVH zone not deployed for domain " ++ UnFqdn ch.ResolvedZone), s,
       [ApiCall.getStatus (UnFqdn ch.ResolvedZone)]) := by
    simp [validateZone, hfail, hdep]
  have hmain : Present um store fail ch s =
      (Except.error ("OVH zone not deployed for domain " ++ UnFqdn ch.ResolvedZone), s,
       [ApiCall.getStatus (UnFqdn ch.ResolvedZone)]) := by
    unfold Present
    rw [hcl]
    unfold addTXTRecord
    rw [hval]
  refine ⟨hmain, ?_⟩
  rw [hmain]
  intro c hc
  simp at hc
  subst hc
  exact ⟨fun d ft sd tg ttl => by simp, fun d => by simp⟩

/-- Witness for C3: an undeployed zone; the client builds successfully
(absent config, ambient credentials allowed) and Present stops at the
status check. -/
theorem present_zone_not_deployed_no_mutation_witness :
    Present (fun _ => Except.error "unused") (fun _ _ => Except.error "unused") noFail
      ⟨"example.com.", "_acme-challenge.example.com.", "key", none, "default", true⟩
      ⟨false, [], 1⟩ =
      (Except.error "OVH zone not deployed for domain example.com", ⟨false, [], 1⟩,
       [ApiCall.getStatus "example.com"]) := by
  have h := present_zone_not_deployed_no_mutation
    (fun _ => Except.error "unused") (fun _ _ => Except.error "unused") noFail
    ⟨"example.com.", "_acme-challenge.example.com.", "key", none, "default", true⟩
    ⟨false, [], 1⟩ ⟨"", "", "", ""⟩ (by rfl) (by rfl) (by rfl)
  rw [h.1]
  rfl

theorem addTXTRecord_ok_trace (fail : FailOracle) (domain subDomain target : String)
    (s : ZoneState) (h : (addTXTRecord fail domain subDomain target s).1 = Except.ok ()) :
    (addTXTRecord fail domain subDomain target s).2.2 =
      [ApiCall.getStatus domain, ApiCall.postRecord domain "TXT" subDomain target 60,
       ApiCall.postRefresh domain] := by
  cases hfs : fail (ApiCall.getStatus domain) with
  | some msg =>
    simp [addTXTRecord, validateZone, hfs] at h
  | none =>
    cases hdep : s.isDeployed with
    | false => simp [addTXTRecord, validateZone, hfs, hdep] at h
    | true =>
      cases hpc : fail (ApiCall.postRecord domain "TXT" subDomain target 60) with
      | some msg =>
        simp [addTXTRecord, validateZone, createRecord, hfs, hdep, hpc] at h
      | none =>
        cases hpr : fail (ApiCall.postRefresh domain) with
        | some msg =>
          simp [addTXTRecord, validateZone, createRecord, refreshRecords,
            hfs, hdep, hpc, hpr] at h
        | none =>
          simp [addTXTRecord, validateZone, createRecord, refreshRecords,
            hfs, hdep, hpc, hpr]

/-- C8: every successful `Present` run issues exactly three calls in
order: the zone-status GET, a single record-creation POST whose record has
fieldType "TXT", the subdomain computed from the challenge, the challenge
key as target and ttl 60, and a single zone-refresh POST. -/
theorem present_success_requests :
    ∀ (unmarshal : String → Except String ovhDNSProviderConfig) (store : SecretStore)
      (fail : FailOracle) (ch : ChallengeRequest) (s : ZoneState),
      (Present unmarshal store fail ch s).1 = Except.ok () →
      (Present unmarshal store fail ch s).2.2 =
        [ApiCall.getStatus (UnFqdn ch.ResolvedZone),
         ApiCall.postRecord (UnFqdn ch.ResolvedZone) "TXT"
           (getSubDomain (UnFqdn ch.ResolvedZone) ch.ResolvedFQDN) ch.Key 60,
         ApiCall.postRefresh (UnFqdn ch.ResolvedZone)] := by
  intro um store fail ch s h
  unfold Present at h ⊢
  cases hcl : ovhClient um store ch with
  | error e =>
    rw [hcl] at h
    simp at h
  | ok creds =>
    rw [hcl] at h
    exact addTXTRecord_ok_trace fail _ _ _ s h

/-- Witness for C8: a deployed empty zone; Present succeeds and the trace
is exactly status GET, record POST, refresh POST. -/
theorem present_success_requests_witness :
    (Present (fun _ => Except.error "unused") (fun _ _ => Except.error "unused") noFail
      ⟨"example.com.", "_acme-challenge.example.com.", "key", none, "default", true⟩
      ⟨true, [], 1⟩).2.2 =
      [ApiCall.getStatus "example.com",
       ApiCall.postRecord "example.com" "TXT" "_acme-challenge" "key" 60,
       ApiCall.postRefresh "example.com"] := by
  have h := present_success_requests
    (fun _ => Except.error "unused") (fun _ _ => Except.error "unused") noFail
    ⟨"example.com.", "_acme-challenge.example.com.", "key", none, "default", true⟩
    ⟨true, [], 1⟩ (by rfl)
  rw [h]
  rfl

/-- C5: with ambient credentials allowed, validation is skipped and the
client is built from the (possibly empty) config; with ambient credentials
disallowed, validation succeeds exactly when endpoint, application key,
application-secret reference name and consumer key are all non-empty, and
each missing field — in the check order of the source — produces exactly
the error message naming that field (endpoint, application key,
application secret, consumer key); and a client build on the payload with
endpoint "ovh-eu" only and ambient credentials disallowed fails naming the
application key. -/
theorem validate_and_ovhClient_requirements :
    (∀ cfg : ovhDNSProviderConfig, validate cfg true = none) ∧
    (∀ cfg : ovhDNSProviderConfig,
      validate cfg false = none ↔
        (cfg.Endpoint ≠ "" ∧ cfg.ApplicationKey ≠ "" ∧
         cfg.ApplicationSecretRef.Name ≠ "" ∧ cfg.ConsumerKey ≠ "")) ∧
    (∀ cfg : ovhDNSProviderConfig,
      cfg.Endpoint = "" →
      validate cfg false = some "no endpoint provided in OVH config") ∧
    (∀ cfg : ovhDNSProviderConfig,
      cfg.Endpoint ≠ "" → cfg.ApplicationKey = "" →
      validate cfg false = some "no application key provided in OVH config") ∧
    (∀ cfg : ovhDNSProviderConfig,
      cfg.Endpoint ≠ "" → cfg.ApplicationKey ≠ "" →
      cfg.ApplicationSecretRef.Name = "" →
      validate cfg false = some "no application secret provided in OVH config") ∧
    (∀ cfg : ovhDNSProviderConfig,
      cfg.Endpoint ≠ "" → cfg.ApplicationKey ≠ "" →
      cfg.ApplicationSecretRef.Name ≠ "" → cfg.ConsumerKey = "" →
      validate cfg false = some "no consumer key provided in OVH config") ∧
    (∀ (unmarshal : String → Except String ovhDNSProviderConfig) (store : SecretStore)
      (ch : ChallengeRequest) (cfg : ovhDNSProviderConfig) (sec : String),
      loadConfig unmarshal ch.Config = Except.ok cfg →
      ch.AllowAmbientCredentials = true →
      secret store cfg.ApplicationSecretRef ch.ResourceNamespace = Except.ok sec →
      ovhClient unmarshal store ch =
        Except.ok ⟨cfg.Endpoint, cfg.ApplicationKey, sec, cfg.ConsumerKey⟩) ∧
    (∀ (unmarshal : String → Except String ovhDNSProviderConfig) (store : SecretStore)
      (ch : ChallengeRequest),
      unmarshal "\x7b\"endpoint\":\"ovh-eu\"\x7d" =
        Except.ok ⟨"ovh-eu", "", ⟨"", ""⟩, ""⟩ →
      ch.Config = some "\x7b\"endpoint\":\"ovh-eu\"\x7d" →
      ch.AllowAmbientCredentials = false →
      ovhClient unmarshal store ch =
        Except.error "no application key provided in OVH config") := by
  refine ⟨fun cfg => rfl, ?_, ?_, ?_, ?_, ?_, ?_, ?_⟩
  · intro cfg
    simp only [validate, if_false, Bool.false_eq_true]
    split_ifs with h1 h2 h3 h4 <;> simp_all
  · intro cfg h1
    simp only [validate, if_false, Bool.false_eq_true]
    split_ifs with g1 g2 g3 g4 <;> simp_all
  · intro cfg h1 h2
    simp only [validate, if_false, Bool.false_eq_true]
    split_ifs with g1 g2 g3 g4 <;> simp_all
  · intro cfg h1 h2 h3
    simp only [validate, if_false, Bool.false_eq_true]
    split_ifs with g1 g2 g3 g4 <;> simp_all
  · intro cfg h1 h2 h3 h4
    simp only [validate, if_false, Bool.false_eq_true]
    split_ifs with g1 g2 g3 g4 <;> simp_all
  · intro um store ch cfg sec hload hamb hsec
    unfold ovhClient
    rw [hload, hamb]
    simp [validate, hsec]
  · intro um store ch hum hconf hamb
    unfold ovhClient loadConfig
    rw [hconf, hamb]
    simp [hum, validate]

/-- Witness for C5: a full config validates; each of the four missing
fields produces exactly its own named error; the client builds from the
config when ambient credentials are allowed; and an endpoint-only decode
with ambient credentials disallowed fails naming the application key. -/
theorem validate_and_ovhClient_requirements_witness :
    validate ⟨"ovh-eu", "ak", ⟨"sname", "skey"⟩, "ck"⟩ true = none ∧
    validate ⟨"ovh-eu", "ak", ⟨"sname", "skey"⟩, "ck"⟩ false = none ∧
    validate ⟨"", "ak", ⟨"sname", "skey"⟩, "ck"⟩ false =
      some "no endpoint provided in OVH config" ∧
    validate ⟨"ovh-eu", "", ⟨"", ""⟩, ""⟩ false =
      some "no application key provided in OVH config" ∧
    validate ⟨"ovh-eu", "ak", ⟨"", "skey"⟩, "ck"⟩ false =
      some "no application secret provided in OVH config" ∧
    validate ⟨"ovh-eu", "ak", ⟨"sname", "skey"⟩, ""⟩ false =
      some "no consumer key provided in OVH config" ∧
    ovhClient (fun _ => Except.error "unused") (fun _ _ => Except.error "unused")
      ⟨"example.com.", "_acme-challenge.example.com.", "key", none, "default", true⟩ =
      Except.ok ⟨"", "", "", ""⟩ ∧
    ovhClient
      (fun raw => if raw = "\x7b\"endpoint\":\"ovh-eu\"\x7d"
        then Except.ok ⟨"ovh-eu", "", ⟨"", ""⟩, ""⟩ else Except.error "bad")
      (fun _ _ => Except.error "unused")
      ⟨"example.com.", "_acme-challenge.example.com.", "key",
       some "\x7b\"endpoint\":\"ovh-eu\"\x7d", "default", false⟩ =
      Except.error "no application key provided in OVH config" := by
  refine ⟨validate_and_ovhClient_requirements.1 _, ?_, ?_, ?_, ?_, ?_, ?_, ?_⟩
  · exact (validate_and_ovhClient_requirements.2.1 _).mpr (by decide)
  · exact validate_and_ovhClient_requirements.2.2.1 _ (by decide)
  · exact validate_and_ovhClient_requirements.2.2.2.1 _ (by decide) (by decide)
  · exact validate_and_ovhClient_requirements.2.2.2.2.1 _ (by decide) (by decide) (by decide)
  · exact validate_and_ovhClient_requirements.2.2.2.2.2.1 _
      (by decide) (by decide) (by decide) (by decide)
  · exact validate_and_ovhClient_requirements.2.2.2.2.2.2.1
      (fun _ => Except.error "unused") (fun _ _ => Except.error "unused")
      ⟨"example.com.", "_acme-challenge.example.com.", "key", none, "default", true⟩
      ⟨"", "", ⟨"", ""⟩, ""⟩ "" (by rfl) (by rfl) (by rfl)
  · exact validate_and_ovhClient_requirements.2.2.2.2.2.2.2
      (fun raw => if raw = "\x7b\"endpoint\":\"ovh-eu\"\x7d"
        then Except.ok ⟨"ovh-eu", "", ⟨"", ""⟩, ""⟩ else Except.error "bad")
      (fun _ _ => Except.error "unused")
      ⟨"example.com.", "_acme-challenge.example.com.", "key",
       some "\x7b\"endpoint\":\"ovh-eu\"\x7d", "default", false⟩
      (by rfl) (by rfl) (by rfl)

/-- C6: decoding an absent payload yields the zero-value config with no
error, and decoding a payload the JSON parser rejects yields an error
carrying the underlying parse failure; `loadConfig` is a pure function, so
decoding has no side effects. -/
theorem loadConfig_absent_and_malformed :
    (∀ unmarshal : String → Except String ovhDNSProviderConfig,
      loadConfig unmarshal none = Except.ok ⟨"", "", ⟨"", ""⟩, ""⟩) ∧
    (∀ (unmarshal : String → Except String ovhDNSProviderConfig) (raw e : String),
      unmarshal raw = Except.error e →
      loadConfig unmarshal (some raw) =
        Except.error ("error decoding OVH config: " ++ e)) := by
  constructor
  · intro um
    rfl
  · intro um raw e h
    simp [loadConfig, h]

/-- Witness for C6: the absent payload and a malformed payload against a
parser that rejects everything. -/
theorem loadConfig_absent_and_malformed_witness :
    loadConfig (fun _ => Except.error "unexpected end of JSON input") none =
      Except.ok ⟨"", "", ⟨"", ""⟩, ""⟩ ∧
    loadConfig (fun _ => Except.error "unexpected end of JSON input") (some "not-json") =
      Except.error "error decoding OVH config: unexpected end of JSON input" := by
  refine ⟨loadConfig_absent_and_malformed.1 _, ?_⟩
  have h := loadConfig_absent_and_malformed.2
    (fun _ => Except.error "unexpected end of JSON input") "not-json"
    "unexpected end of JSON input" rfl
  rw [h]
  rfl

/-- C7: credential resolution with an empty secret name returns the empty
string with no error; with an existing secret lacking the requested key it
fails with a message naming the key, the namespace and the secret name;
and a store failure (such as not-found for a nonexistent secret) is
propagated verbatim, distinct from the missing-key error. -/
theorem secret_resolution_cases :
    (∀ (store : SecretStore) (ns key : String),
      secret store ⟨"", key⟩ ns = Except.ok "") ∧
    (∀ (store : SecretStore) (ns name key : String) (data : List (String × String)),
      name ≠ "" → store ns name = Except.ok data → data.lookup key = none →
      secret store ⟨name, key⟩ ns =
        Except.error ("key not found \"" ++ key ++ "\" in secret " ++
          squote ++ ns ++ "/" ++ name ++ squote)) ∧
    (∀ (store : SecretStore) (ns name key e : String),
      name ≠ "" → store ns name = Except.error e →
      secret store ⟨name, key⟩ ns = Except.error e) := by
  refine ⟨fun store ns key => rfl, ?_, ?_⟩
  · intro store ns name key data hne hstore hlookup
    simp [secret, hne, hstore, hlookup]
  · intro store ns name key e hne hstore
    simp [secret, hne, hstore]

/-- Witness for C7: a store with one secret holding one key, queried for an
empty reference, a missing key, and a missing secret. -/
theorem secret_resolution_cases_witness :
    secret (fun _ _ => Except.ok [("tok", "s3cr3t")]) ⟨"", "tok"⟩ "default" =
      Except.ok "" ∧
    secret
      (fun ns name => if ns = "default" ∧ name = "ovh-credentials"
        then Except.ok [("tok", "s3cr3t")] else Except.error "secrets \"missing\" not found")
      ⟨"ovh-credentials", "applicationSecret"⟩ "default" =
      Except.error ("key not found \"applicationSecret\" in secret " ++
        squote ++ "default" ++ "/" ++ "ovh-credentials" ++ squote) ∧
    secret
      (fun ns name => if ns = "default" ∧ name = "ovh-credentials"
        then Except.ok [("tok", "s3cr3t")] else Except.error "secrets \"missing\" not found")
      ⟨"missing", "tok"⟩ "default" =
      Except.error "secrets \"missing\" not found" := by
  refine ⟨secret_resolution_cases.1 _ _ _, ?_, ?_⟩
  · exact secret_resolution_cases.2.1 _ "default" "ovh-credentials" "applicationSecret"
      [("tok", "s3cr3t")] (by decide) (by rfl) (by decide)
  · exact secret_resolution_cases.2.2 _ "default" "missing" "tok"
      "secrets \"missing\" not found" (by decide) (by rfl)

end OvhWebhook
